import Mathlib

/-!
Shallow embedding of the excel-interview-bot repository
(src/interviewer.py and src/streamlit_app.py).

The external LLM ("Oracle") is modelled by explicit inputs: each call site
receives an `Option` value, where `none` models the call raising an
exception (or the JSON parse failing), and `some v` models a successful
call whose parsed result is `v`.  Structured (JSON) oracle results are
modelled as association lists of key/value pairs, mirroring the Python
dicts returned by `json.loads`.

Python exceptions escaping a function are modelled by the function
returning `none : Option Session`.
-/

namespace ExcelBot

/-- A JSON-like value, as consumed by key from the parsed oracle responses
(the code only ever reads string- and integer-valued fields). -/
inductive JVal where
  | jstr : String → JVal
  | jint : Int → JVal
deriving DecidableEq, Repr

/-- A parsed JSON object: association list from key to value (Python dict). -/
def JObj := List (String × JVal)

instance : DecidableEq JObj := by unfold JObj; infer_instance

/-- Python `dict.get(k)` with no default: the first binding of `k`, else `None`. -/
def pyGet (o : JObj) (k : String) : Option JVal :=
  (List.find? (fun kv => kv.1 == k) o).map (fun kv => kv.2)

/-- Python `str(x)` as used in f-strings on an optional JSON value
(`None` renders as the string "None"). -/
def pyStrJ : Option JVal → String
  | none => "None"
  | some (.jstr s) => s
  | some (.jint n) => toString n

/-- Python f-string rendering of an optional string (`None` renders as "None"). -/
def pyStrOptS : Option String → String
  | none => "None"
  | some s => s

/-- Python `dict.get(k, default)` where the call site expects text
(a non-string value is rendered; a missing key yields the default). -/
def pyGetStrD (o : JObj) (k d : String) : String :=
  match pyGet o k with
  | none => d
  | some (.jstr s) => s
  | some (.jint n) => toString n

/-- Python `dict.get(k, 0)` as stored into the skill profile: the raw JSON
value when the key is present, the integer 0 otherwise. -/
def pyGetVD (o : JObj) (k : String) (d : JVal) : JVal :=
  (pyGet o k).getD d

/-- Python `str.strip()` (used at interviewer.py line 101): drop leading
and trailing whitespace. -/
def pyStrip (s : String) : String :=
  ⟨((s.data.dropWhile Char.isWhitespace).reverse.dropWhile Char.isWhitespace).reverse⟩

/-- interviewer.py line 59, the free-text fallback of `_call_gemini`. -/
def apologyMsg : String :=
  "My apologies, I encountered a system error. Let\x27s try the next step."

/-- interviewer.py line 58, the structured fallback dict of `_call_gemini`. -/
def errorObj : JObj :=
  [("error", .jstr "Failed to get a valid response from the model."),
   ("scenario", .jstr "Error"),
   ("dataset_description", .jstr "Error")]

/-- interviewer.py `_call_gemini` with `is_json=False`: the oracle response
text on success, the apology fallback when the call raises. -/
def call_gemini_text (resp : Option String) : String :=
  resp.getD apologyMsg

/-- interviewer.py `_call_gemini` with `is_json=True`: the parsed oracle
response on success, the error-marker dict when the call raises or the
response fails to parse. -/
def call_gemini_json (resp : Option JObj) : JObj :=
  resp.getD errorObj

/-- The four assessed skills (keys of `skill_profile`, interviewer.py 32-37). -/
inductive Skill where
  | dataCleaning
  | dataAnalysis
  | dataSummarization
  | behavioral
deriving DecidableEq, Repr

/-- The status values stored in a skill record. -/
inductive Status where
  | Untested
  | Assessed
  | Skipped
deriving DecidableEq, Repr

/-- One entry of `skill_profile` (interviewer.py 32-37).  `score` and
`efficiency` hold whatever JSON value `dict.get(k, 0)` produced; the
initial value is the integer 0.  The Behavioral dict in the source has no
`efficiency` key; it is modelled as the (never updated, never read)
initial 0. -/
structure SkillRecord where
  status : Status
  score : JVal
  efficiency : JVal
  evidence : String
deriving DecidableEq, Repr

/-- The initial profile: every skill Untested with zero scores. -/
def initProfile : Skill → SkillRecord :=
  fun _ => { status := .Untested, score := .jint 0, efficiency := .jint 0, evidence := "" }

/-- Functional update of one key of the skill profile (Python dict item
assignment / `dict.update`). -/
def updateProfile (p : Skill → SkillRecord) (sk : Skill) (r : SkillRecord) :
    Skill → SkillRecord :=
  fun x => if x = sk then r else p x

/-- The `JobWinningInterviewAgent` object state (interviewer.py 26-39).
`interview_role` is set by the app immediately after construction
(streamlit_app.py 49-50); the two are merged here. -/
structure Agent where
  candidate_name : String
  interview_role : String
  skill_profile : Skill → SkillRecord
  case_study : Option JObj
  conversation_history : List (String × String)

/-- Agent construction (interviewer.py `__init__` plus the role assignment
at streamlit_app.py line 50). -/
def mkAgent (name role : String) : Agent :=
  { candidate_name := name
    interview_role := role
    skill_profile := initProfile
    case_study := none
    conversation_history := [] }

/-- interviewer.py `_introduce_case_study`: stores the (possibly fallback)
case-study object and returns the intro message built from it. -/
def introduce_case_study (a : Agent) (o_case : Option JObj) : Agent × String :=
  let cs := call_gemini_json o_case
  ({ a with case_study := some cs },
   "Okay, let\x27s dive into a practical case study.\n\n**Scenario:** " ++
     pyStrJ (pyGet cs "scenario") ++
     "\n\n**Dataset:**\n\n```text\n" ++
     pyStrJ (pyGet cs "dataset_description") ++
     "\n```\n\nLet\x27s tackle this in a few steps. First, let\x27s talk about cleaning this data.")

/-- interviewer.py `_evaluate_technical_answer`: records the (possibly
degenerate) evaluation into the profile and returns the bot reply.
`question` is `st.session_state.current_question`, which is an optional
value rendered by the f-string. -/
def evaluate_technical_answer (a : Agent) (question : Option String)
    (answer : String) (skill : Skill) (o_eval : Option JObj) : Agent × String :=
  let evaluation := call_gemini_json o_eval
  let newRec : SkillRecord :=
    { status := .Assessed
      score := pyGetVD evaluation "score" (.jint 0)
      efficiency := pyGetVD evaluation "efficiency_score" (.jint 0)
      evidence := "Q: " ++ pyStrOptS question ++ "\nA: " ++ answer ++
        "\nEval: " ++ pyStrJ (pyGet evaluation "justification") ++
        "\nEfficency: " ++ pyStrJ (pyGet evaluation "efficiency_justification") }
  ({ a with skill_profile := updateProfile a.skill_profile skill newRec },
   pyGetStrD evaluation "bot_response" "Okay, thank you for that.")

/-- interviewer.py `evaluate_behavioral_answer`: records score and evidence
for the Behavioral skill (the Python `update` touches status, score and
evidence only; there is no efficiency key) and returns the fixed reply. -/
def evaluate_behavioral_answer (a : Agent) (question : Option String)
    (answer : String) (o_eval : Option JObj) : Agent × String :=
  let evaluation := call_gemini_json o_eval
  let old := a.skill_profile .behavioral
  let newRec : SkillRecord :=
    { status := .Assessed
      score := pyGetVD evaluation "score" (.jint 0)
      efficiency := old.efficiency
      evidence := "Q: " ++ pyStrOptS question ++ "\nA: " ++ answer ++
        "\nEval: " ++ pyStrJ (pyGet evaluation "justification") }
  ({ a with skill_profile := updateProfile a.skill_profile .behavioral newRec },
   "Thank you for sharing that.")

/-- Python `name.replace(' ', '_')` on the candidate name
(interviewer.py line 178). -/
def replaceSpace (s : String) : String :=
  ⟨s.data.map (fun c => if c = ' ' then '_' else c)⟩

/-- The persisted log filename (interviewer.py line 178), as a function of
the candidate name and the integer timestamp. -/
def logFilename (name : String) (ts : Nat) : String :=
  "interview_log_" ++ replaceSpace name ++ "_" ++ Nat.repr ts ++ ".json"

/-- The persisted log record `feedback_data` (interviewer.py 170-177). -/
structure Feedback where
  candidate_name : String
  interview_role : String
  final_skill_profile : Skill → SkillRecord
  ai_generated_report : String
  full_transcript : List (String × String)
  timestamp : Nat

/-- interviewer.py `generate_final_report`: the report text (free-text
oracle call with fallback), the persisted record, and the log filename.
`ts` models `int(time.time())`. -/
def generate_final_report (a : Agent) (o_report : Option String) (ts : Nat) :
    String × Feedback × String :=
  let final_report := call_gemini_text o_report
  (final_report,
   { candidate_name := a.candidate_name
     interview_role := a.interview_role
     final_skill_profile := a.skill_profile
     ai_generated_report := final_report
     full_transcript := a.conversation_history
     timestamp := ts },
   logFilename a.candidate_name ts)

/-- The `st.session_state.stage` values (streamlit_app.py). -/
inductive Stage where
  | start
  | technical_interview
  | behavioral_interview
  | report
deriving DecidableEq, Repr

/-- One chat message {role, content} in `st.session_state.messages`. -/
structure Message where
  role : String
  content : String
deriving DecidableEq, Repr

/-- The Streamlit session state (streamlit_app.py 21-33), plus `savedLog`,
which models the content of the JSON log file written by
`generate_final_report` (absent until a report has been persisted). -/
structure Session where
  stage : Stage
  messages : List Message
  agent : Option Agent
  current_question : Option String
  current_skill : Option Skill
  savedLog : Option Feedback

/-- The initial session state (streamlit_app.py 21-33); no log persisted. -/
def initSession : Session :=
  { stage := .start
    messages := []
    agent := none
    current_question := none
    current_skill := none
    savedLog := none }

/-- The fixed technical skill order (streamlit_app.py line 62). -/
def techSkills : List Skill :=
  [.dataCleaning, .dataAnalysis, .dataSummarization]

/-- streamlit_app.py line 63: the first technical skill whose status is
Untested, if any (`next(..., None)` over the fixed list). -/
def nextUntested (p : Skill → SkillRecord) : Option Skill :=
  List.find? (fun sk => decide ((p sk).status = Status.Untested)) techSkills

/-- streamlit_app.py `ask_behavioral_question`: appends the transition
message and the behavioral question (fallback text when the oracle call
fails); crashes (`none`) if the agent is absent. -/
def ask_behavioral_question (s : Session) (o_q : Option String) : Option Session :=
  match s.agent with
  | none => none
  | some _ =>
    let m1 := s.messages ++
      [{ role := "assistant",
         content := "Great, that concludes the technical case study. Let\x27s move on to one final behavioral question." }]
    let q := call_gemini_text o_q
    some { s with
      messages := m1 ++ [{ role := "assistant", content := q }]
      current_question := some q }

/-- streamlit_app.py `ask_next_technical_question`: picks the next untested
technical skill and asks a question for it, or falls through to the
behavioral stage; crashes (`none`) if the agent is absent. -/
def ask_next_technical_question (s : Session) (o_q : Option String) : Option Session :=
  match s.agent with
  | none => none
  | some a =>
    match nextUntested a.skill_profile with
    | some sk =>
      let q := call_gemini_text o_q
      some { s with
        current_skill := some sk
        current_question := some q
        messages := s.messages ++ [{ role := "assistant", content := q }] }
    | none =>
      ask_behavioral_question { s with stage := .behavioral_interview } o_q

/-- streamlit_app.py `start_interview`: constructs the agent, replaces the
message list with the welcome message, introduces the case study, enters
the technical stage, and asks the first question. -/
def start_interview (s : Session) (name role : String)
    (o_case : Option JObj) (o_q : Option String) : Option Session :=
  let a0 := mkAgent name role
  let msgs0 : List Message :=
    [{ role := "assistant",
       content := "Hello " ++ name ++ "! Welcome to the interview. The role is set to " ++ role ++ "." }]
  let (a1, intro) := introduce_case_study a0 o_case
  ask_next_technical_question
    { s with
      agent := some a1
      messages := msgs0 ++ [{ role := "assistant", content := intro }]
      stage := .technical_interview }
    o_q

/-- streamlit_app.py `handle_user_response`: appends the user message and
branches on the stage and the classified intent.  The oracle responses for
the calls the branch may make are passed explicitly: `o_intent` for the
intent classification, `o_eval` for the technical evaluation, `o_hint` for
the hint, `o_q` for the next (technical or behavioral) question, `o_beval`
for the behavioral evaluation.  A `none` result models a Python exception
(attribute access on a `None` agent, or a profile lookup with a `None`
current skill). -/
def handle_user_response (s : Session) (prompt : String)
    (o_intent : Option String) (o_eval : Option JObj) (o_hint : Option String)
    (o_q : Option String) (o_beval : Option JObj) : Option Session :=
  let s0 := { s with messages := s.messages ++ [Message.mk "user" prompt] }
  match s0.stage with
  | .technical_interview =>
    match s0.agent with
    | none => none
    | some a =>
      let intent := pyStrip (call_gemini_text o_intent)
      if intent = "ANSWERING" then
        match s0.current_skill with
        | none => none
        | some sk =>
          let (a1, bot) := evaluate_technical_answer a s0.current_question prompt sk o_eval
          ask_next_technical_question
            { s0 with
              agent := some a1
              messages := s0.messages ++ [Message.mk "assistant" bot] }
            o_q
      else if intent = "HINT_REQUEST" then
        let hint := call_gemini_text o_hint
        some { s0 with
          messages := s0.messages ++
            [Message.mk "assistant" ("Of course. Here\x27s a hint: " ++ hint)] }
      else
        match s0.current_skill with
        | none => none
        | some sk =>
          let skippedRec := { a.skill_profile sk with status := Status.Skipped }
          let a1 := { a with skill_profile := updateProfile a.skill_profile sk skippedRec }
          ask_next_technical_question
            { s0 with
              agent := some a1
              messages := s0.messages ++
                [Message.mk "assistant" "No problem, let\x27s move on."] }
            o_q
  | .behavioral_interview =>
    match s0.agent with
    | none => none
    | some a =>
      let (a1, bot) := evaluate_behavioral_answer a s0.current_question prompt o_beval
      some { s0 with
        agent := some a1
        messages := s0.messages ++ [Message.mk "assistant" bot]
        stage := .report }
  | _ => some s0

/-- streamlit_app.py report stage rendering (lines 155-162): generates the
report and persists the log record; crashes (`none`) if the agent is
absent. -/
def show_report (s : Session) (o_report : Option String) (ts : Nat) : Option Session :=
  match s.agent with
  | none => none
  | some a =>
    let (_, fb, _) := generate_final_report a o_report ts
    some { s with savedLog := some fb }

/-- The user-driven actions the UI can deliver, with the oracle responses
each underlying call may consume.  `submitStart` is the start form
(streamlit_app.py 116-124), `chat` is a chat-input submission (lines
126-153), `viewReport` is the rendering of the report stage (lines
155-162).  The explicit abandon/reset action is outside this model. -/
inductive UserAction where
  | submitStart (name role : String) (o_case : Option JObj) (o_q : Option String)
  | chat (prompt : String) (o_intent : Option String) (o_eval : Option JObj)
      (o_hint : Option String) (o_q : Option String) (o_beval : Option JObj)
  | viewReport (o_report : Option String) (ts : Nat)

/-- One UI-driven step: each handler runs only in the stages in which the
UI offers it (the stage guards at streamlit_app.py lines 116, 126, 151 and
155); otherwise the session is unchanged. -/
def step (s : Session) (act : UserAction) : Option Session :=
  match act with
  | .submitStart name role o_case o_q =>
    if s.stage = .start then start_interview s name role o_case o_q else some s
  | .chat prompt o_intent o_eval o_hint o_q o_beval =>
    if s.stage = .technical_interview ∨ s.stage = .behavioral_interview then
      handle_user_response s prompt o_intent o_eval o_hint o_q o_beval
    else some s
  | .viewReport o_report ts =>
    if s.stage = .report then show_report s o_report ts else some s

/-- Running a list of user actions; a crash (`none`) in any step aborts. -/
def runActions : Session → List UserAction → Option Session
  | s, [] => some s
  | s, act :: rest =>
    match step s act with
    | none => none
    | some s1 => runActions s1 rest

/-- The record (if any) stored for a skill: `none` when no agent exists. -/
def recOf (s : Session) (sk : Skill) : Option SkillRecord :=
  s.agent.map (fun a => a.skill_profile sk)

/-- An arbitrary external mutation of the live skill profile of a session
(the adversarial "later mutation" quantified over by the snapshot
property); a no-op when no agent exists. -/
def mutateProfile (s : Session) (sk : Skill) (r : SkillRecord) : Session :=
  match s.agent with
  | none => s
  | some a => { s with agent := some { a with skill_profile := updateProfile a.skill_profile sk r } }

/-- Sessions reachable from the initial session through UI-driven steps. -/
inductive Reachable : Session → Prop where
  | base : Reachable initSession
  | tail : ∀ s act s1, Reachable s → step s act = some s1 → Reachable s1

/-! ## Invariant layer -/

/-- Explicit characterization of `nextUntested` as nested conditionals. -/
theorem nextUntested_eq (p : Skill → SkillRecord) :
    nextUntested p =
      (if (p .dataCleaning).status = Status.Untested then some Skill.dataCleaning
       else if (p .dataAnalysis).status = Status.Untested then some Skill.dataAnalysis
       else if (p .dataSummarization).status = Status.Untested then some Skill.dataSummarization
       else none) := by
  by_cases h1 : (p .dataCleaning).status = Status.Untested <;>
  by_cases h2 : (p .dataAnalysis).status = Status.Untested <;>
  by_cases h3 : (p .dataSummarization).status = Status.Untested <;>
  simp [nextUntested, techSkills, List.find?, h1, h2, h3]

/-- The skill returned by `nextUntested` is Untested. -/
theorem nu_some_untested (p : Skill → SkillRecord) (sk : Skill)
    (h : nextUntested p = some sk) : (p sk).status = Status.Untested := by
  rw [nextUntested_eq] at h
  by_cases h1 : (p .dataCleaning).status = Status.Untested <;>
  by_cases h2 : (p .dataAnalysis).status = Status.Untested <;>
  by_cases h3 : (p .dataSummarization).status = Status.Untested <;>
  simp only [h1, h2, h3, if_true, if_false, Option.some.injEq,
    reduceCtorEq, if_pos, if_neg, not_false_iff] at h <;>
  (subst h; assumption)

/-- The skill returned by `nextUntested` is a technical skill. -/
theorem nu_some_tech (p : Skill → SkillRecord) (sk : Skill)
    (h : nextUntested p = some sk) : sk ≠ Skill.behavioral := by
  rw [nextUntested_eq] at h
  by_cases h1 : (p .dataCleaning).status = Status.Untested <;>
  by_cases h2 : (p .dataAnalysis).status = Status.Untested <;>
  by_cases h3 : (p .dataSummarization).status = Status.Untested <;>
  first
  | (rw [if_neg h1, if_neg h2, if_neg h3] at h; exact absurd h (by simp))
  | (rw [if_pos h1] at h; injection h with h; subst h; simp)
  | (rw [if_neg h1, if_pos h2] at h; injection h with h; subst h; simp)
  | (rw [if_neg h1, if_neg h2, if_pos h3] at h; injection h with h; subst h; simp)

/-- Spec section 8 property 2 as a state predicate: the technical statuses
always form a prefix of the fixed order, so a later skill is never tested
before an earlier one. -/
def TechOrdered (p : Skill → SkillRecord) : Prop :=
  ((p .dataAnalysis).status ≠ Status.Untested → (p .dataCleaning).status ≠ Status.Untested) ∧
  ((p .dataSummarization).status ≠ Status.Untested → (p .dataAnalysis).status ≠ Status.Untested)

/-- Updating the first untested technical skill with a non-Untested record
preserves the ordering discipline and does not touch the Behavioral entry. -/
theorem update_keeps_order (p : Skill → SkillRecord) (sk : Skill) (r : SkillRecord)
    (hnu : nextUntested p = some sk) (hr : r.status ≠ Status.Untested)
    (hord : TechOrdered p) :
    TechOrdered (updateProfile p sk r) ∧
      updateProfile p sk r Skill.behavioral = p Skill.behavioral := by
  obtain ⟨ho1, ho2⟩ := hord
  rw [nextUntested_eq] at hnu
  by_cases h1 : (p .dataCleaning).status = Status.Untested
  · rw [if_pos h1] at hnu
    injection hnu with hsk
    subst hsk
    refine ⟨⟨?_, ?_⟩, ?_⟩
    · intro _
      simpa [updateProfile] using hr
    · intro h
      have h4 : (p .dataSummarization).status ≠ Status.Untested := by
        simpa [updateProfile] using h
      simpa [updateProfile] using ho2 h4
    · simp [updateProfile]
  · rw [if_neg h1] at hnu
    by_cases h2 : (p .dataAnalysis).status = Status.Untested
    · rw [if_pos h2] at hnu
      injection hnu with hsk
      subst hsk
      refine ⟨⟨?_, ?_⟩, ?_⟩
      · intro _
        simpa [updateProfile] using h1
      · intro _
        simpa [updateProfile] using hr
      · simp [updateProfile]
    · rw [if_neg h2] at hnu
      by_cases h3 : (p .dataSummarization).status = Status.Untested
      · rw [if_pos h3] at hnu
        injection hnu with hsk
        subst hsk
        refine ⟨⟨?_, ?_⟩, ?_⟩
        · intro _
          simpa [updateProfile] using h1
        · intro _
          simpa [updateProfile] using h2
        · simp [updateProfile]
      · rw [if_neg h3] at hnu
        exact absurd hnu (by simp)

/-- Updating the Behavioral entry leaves `nextUntested` unchanged. -/
theorem nu_update_behavioral (p : Skill → SkillRecord) (r : SkillRecord) :
    nextUntested (updateProfile p Skill.behavioral r) = nextUntested p := by
  rw [nextUntested_eq, nextUntested_eq]
  simp [updateProfile]

/-- Updating the Behavioral entry preserves the ordering discipline. -/
theorem order_update_behavioral (p : Skill → SkillRecord) (r : SkillRecord)
    (hord : TechOrdered p) : TechOrdered (updateProfile p Skill.behavioral r) := by
  simpa [TechOrdered, updateProfile] using hord

/-- The session invariant: in each stage, the agent exists (except at the
start), the current skill is exactly the next untested technical skill
during technical questioning, the technical statuses form an order prefix,
and the Behavioral entry is Untested until the behavioral answer is
recorded (Assessed once the report stage is reached). -/
def Inv (s : Session) : Prop :=
  match s.stage with
  | .start => s.agent = none
  | .technical_interview =>
    ∃ a sk, s.agent = some a ∧ s.current_skill = some sk ∧
      nextUntested a.skill_profile = some sk ∧
      (a.skill_profile .behavioral).status = Status.Untested ∧
      TechOrdered a.skill_profile
  | .behavioral_interview =>
    ∃ a, s.agent = some a ∧ nextUntested a.skill_profile = none ∧
      (a.skill_profile .behavioral).status = Status.Untested ∧
      TechOrdered a.skill_profile
  | .report =>
    ∃ a, s.agent = some a ∧ nextUntested a.skill_profile = none ∧
      (a.skill_profile .behavioral).status = Status.Assessed ∧
      TechOrdered a.skill_profile

theorem inv_initSession : Inv initSession := by
  simp [Inv, initSession]

/-- Entering `ask_next_technical_question` from the technical stage with a
live agent whose profile is ordered and whose Behavioral entry is Untested
always succeeds and re-establishes the invariant. -/
theorem ask_next_inv (s : Session) (a : Agent) (oq : Option String)
    (ha : s.agent = some a) (hst : s.stage = Stage.technical_interview)
    (hb : (a.skill_profile .behavioral).status = Status.Untested)
    (hord : TechOrdered a.skill_profile) :
    ∃ s1, ask_next_technical_question s oq = some s1 ∧ Inv s1 ∧
      s1.agent = some a ∧ s1.savedLog = s.savedLog ∧
      (s1.stage = Stage.technical_interview ∨ s1.stage = Stage.behavioral_interview) := by
  unfold ask_next_technical_question ask_behavioral_question
  simp only [ha]
  cases hnu : nextUntested a.skill_profile with
  | some sk =>
    refine ⟨_, rfl, ?_, rfl, rfl, Or.inl hst⟩
    simp only [Inv, hst]
    exact ⟨a, sk, rfl, rfl, hnu, hb, hord⟩
  | none =>
    simp only [ha]
    refine ⟨_, rfl, ?_, rfl, rfl, Or.inr rfl⟩
    simp only [Inv]
    exact ⟨a, rfl, hnu, hb, hord⟩
/-- The updated agent produced by `evaluate_technical_answer` differs from
the input agent exactly by an Assessed record at the tested skill. -/
theorem eval_tech_profile (a : Agent) (q : Option String) (ans : String)
    (sk : Skill) (oe : Option JObj) :
    ∃ r, (evaluate_technical_answer a q ans sk oe).1.skill_profile =
        updateProfile a.skill_profile sk r ∧ r.status = Status.Assessed :=
  ⟨_, rfl, rfl⟩

/-- The updated agent produced by `evaluate_behavioral_answer` differs from
the input agent exactly by an Assessed record at the Behavioral skill. -/
theorem eval_behav_profile (a : Agent) (q : Option String) (ans : String)
    (ob : Option JObj) :
    ∃ r, (evaluate_behavioral_answer a q ans ob).1.skill_profile =
        updateProfile a.skill_profile Skill.behavioral r ∧ r.status = Status.Assessed :=
  ⟨_, rfl, rfl⟩

/-- The agent produced by the UNCERTAIN/else branch of
`handle_user_response`: the current skill is marked Skipped in place. -/
def skipAgent (a : Agent) (sk : Skill) : Agent :=
  let skippedRec := { a.skill_profile sk with status := Status.Skipped }
  { a with skill_profile := updateProfile a.skill_profile sk skippedRec }

/-- The skipped agent differs from the input agent exactly by a Skipped
record at the current skill. -/
theorem skip_profile (a : Agent) (sk : Skill) :
    ∃ r, (skipAgent a sk).skill_profile = updateProfile a.skill_profile sk r ∧
      r.status = Status.Skipped :=
  ⟨_, rfl, rfl⟩

/-- Progress and preservation: from an invariant state every UI action
succeeds (no exception escapes), the invariant is preserved, every skill
record that has already left Untested is kept verbatim, and the persisted
log only changes when the report stage is re-rendered. -/
theorem step_sound (s : Session) (act : UserAction) (hInv : Inv s) :
    ∃ s1, step s act = some s1 ∧ Inv s1 ∧
      (∀ sk2 r2, recOf s sk2 = some r2 → r2.status ≠ Status.Untested →
        recOf s1 sk2 = some r2) ∧
      (s1.savedLog = s.savedLog ∨
        ∃ a2 orep ts, act = UserAction.viewReport orep ts ∧
          s.stage = Stage.report ∧ s.agent = some a2 ∧
          s1.savedLog = some (generate_final_report a2 orep ts).2.1) := by
  obtain ⟨st, msgs, ag, cq, csk, slog⟩ := s
  cases act with
  | submitStart name role oc oq =>
    cases st with
    | start =>
      have hag : ag = none := hInv
      subst hag
      obtain ⟨s1, hs1, hinv1, hag1, hsl1, _⟩ :=
        ask_next_inv
          ⟨Stage.technical_interview,
            [Message.mk "assistant"
                ("Hello " ++ name ++ "! Welcome to the interview. The role is set to " ++ role ++ ".")] ++
              [Message.mk "assistant" (introduce_case_study (mkAgent name role) oc).2],
            some (introduce_case_study (mkAgent name role) oc).1, cq, csk, slog⟩
          (introduce_case_study (mkAgent name role) oc).1 oq rfl rfl rfl
          ⟨fun h => absurd rfl h, fun h => absurd rfl h⟩
      exact ⟨s1, hs1, hinv1,
        fun sk2 r2 hrec _ => absurd hrec (by simp [recOf]),
        Or.inl hsl1⟩
    | technical_interview =>
      exact ⟨_, rfl, hInv, fun _ _ h _ => h, Or.inl rfl⟩
    | behavioral_interview =>
      exact ⟨_, rfl, hInv, fun _ _ h _ => h, Or.inl rfl⟩
    | report =>
      exact ⟨_, rfl, hInv, fun _ _ h _ => h, Or.inl rfl⟩
  | chat p oi oe oh oq ob =>
    cases st with
    | start =>
      exact ⟨_, rfl, hInv, fun _ _ h _ => h, Or.inl rfl⟩
    | report =>
      exact ⟨_, rfl, hInv, fun _ _ h _ => h, Or.inl rfl⟩
    | technical_interview =>
      obtain ⟨a, sk, ha, hsk, hnu, hbv, hord⟩ :=
        (hInv : ∃ a sk, _ = some a ∧ _ = some sk ∧ _ ∧ _ ∧ _)
      subst ha
      subst hsk
      simp only [step, handle_user_response, reduceIte, eq_self_iff_true, true_or, if_true]
      by_cases hA : pyStrip (call_gemini_text oi) = "ANSWERING"
      · rw [if_pos hA]
        obtain ⟨r, hprof, hrst⟩ := eval_tech_profile a cq p sk oe
        have hrne : r.status ≠ Status.Untested := by rw [hrst]; decide
        obtain ⟨hord1, hbeh1⟩ := update_keeps_order a.skill_profile sk r hnu hrne hord
        obtain ⟨s1, hs1, hinv1, hag1, hsl1, _⟩ :=
          ask_next_inv
            ⟨Stage.technical_interview,
              (msgs ++ [Message.mk "user" p]) ++
                [Message.mk "assistant" (evaluate_technical_answer a cq p sk oe).2],
              some (evaluate_technical_answer a cq p sk oe).1, cq, some sk, slog⟩
            (evaluate_technical_answer a cq p sk oe).1 oq rfl rfl
            (by rw [hprof, hbeh1]; exact hbv)
            (by rw [hprof]; exact hord1)
        refine ⟨s1, hs1, hinv1, ?_, Or.inl hsl1⟩
        intro sk2 r2 hrec hner2
        have hpa : a.skill_profile sk2 = r2 := Option.some.inj hrec
        have hne : sk2 ≠ sk := by
          intro he
          apply hner2
          rw [← hpa, he]
          exact nu_some_untested a.skill_profile sk hnu
        show recOf s1 sk2 = some r2
        rw [recOf, hag1, Option.map_some', hprof, updateProfile]
        rw [if_neg hne, hpa]
      · rw [if_neg hA]
        by_cases hH : pyStrip (call_gemini_text oi) = "HINT_REQUEST"
        · rw [if_pos hH]
          exact ⟨_, rfl, ⟨a, sk, rfl, rfl, hnu, hbv, hord⟩,
            fun sk2 r2 hrec _ => hrec, Or.inl rfl⟩
        · rw [if_neg hH]
          obtain ⟨r, hprof, hrst⟩ := skip_profile a sk
          have hrne : r.status ≠ Status.Untested := by rw [hrst]; decide
          obtain ⟨hord1, hbeh1⟩ := update_keeps_order a.skill_profile sk r hnu hrne hord
          obtain ⟨s1, hs1, hinv1, hag1, hsl1, _⟩ :=
            ask_next_inv
              ⟨Stage.technical_interview,
                (msgs ++ [Message.mk "user" p]) ++
                  [Message.mk "assistant" "No problem, let\x27s move on."],
                some (skipAgent a sk), cq, some sk, slog⟩
              (skipAgent a sk) oq rfl rfl
              (by rw [hprof, hbeh1]; exact hbv)
              (by rw [hprof]; exact hord1)
          refine ⟨s1, hs1, hinv1, ?_, Or.inl hsl1⟩
          intro sk2 r2 hrec hner2
          have hpa : a.skill_profile sk2 = r2 := Option.some.inj hrec
          have hne : sk2 ≠ sk := by
            intro he
            apply hner2
            rw [← hpa, he]
            exact nu_some_untested a.skill_profile sk hnu
          show recOf s1 sk2 = some r2
          rw [recOf, hag1, Option.map_some', hprof, updateProfile]
          rw [if_neg hne, hpa]
    | behavioral_interview =>
      obtain ⟨a, ha, hnu, hbv, hord⟩ := (hInv : ∃ a, _ = some a ∧ _ ∧ _ ∧ _)
      subst ha
      obtain ⟨r, hprof, hrst⟩ := eval_behav_profile a cq p ob
      refine ⟨⟨Stage.report,
          (msgs ++ [Message.mk "user" p]) ++
            [Message.mk "assistant" "Thank you for sharing that."],
          some (evaluate_behavioral_answer a cq p ob).1, cq, csk, slog⟩,
        rfl, ?_, ?_, Or.inl rfl⟩
      · exact ⟨(evaluate_behavioral_answer a cq p ob).1, rfl,
          (by rw [hprof, nu_update_behavioral]; exact hnu),
          (by rw [hprof]; simp only [updateProfile, if_pos rfl]; exact hrst),
          (by rw [hprof]; exact order_update_behavioral _ _ hord)⟩
      · intro sk2 r2 hrec hner2
        have hpa : a.skill_profile sk2 = r2 := Option.some.inj hrec
        have hne : sk2 ≠ Skill.behavioral := by
          intro he
          apply hner2
          rw [← hpa, he]
          exact hbv
        show some ((evaluate_behavioral_answer a cq p ob).1.skill_profile sk2) = some r2
        rw [hprof, updateProfile]
        rw [if_neg hne, hpa]
  | viewReport orep ts =>
    cases st with
    | start =>
      exact ⟨_, rfl, hInv, fun _ _ h _ => h, Or.inl rfl⟩
    | technical_interview =>
      exact ⟨_, rfl, hInv, fun _ _ h _ => h, Or.inl rfl⟩
    | behavioral_interview =>
      exact ⟨_, rfl, hInv, fun _ _ h _ => h, Or.inl rfl⟩
    | report =>
      obtain ⟨a, ha, hnu, hbst, hord⟩ := (hInv : ∃ a, _ = some a ∧ _ ∧ _ ∧ _)
      subst ha
      exact ⟨⟨Stage.report, msgs, some a, cq, csk,
          some (generate_final_report a orep ts).2.1⟩,
        rfl, ⟨a, rfl, hnu, hbst, hord⟩, fun sk2 r2 hrec _ => hrec,
        Or.inr ⟨a, orep, ts, rfl, rfl, rfl, rfl⟩⟩
/-- Invariant of every reachable session. -/
theorem reachable_inv (s : Session) (h : Reachable s) : Inv s := by
  induction h with
  | base => exact inv_initSession
  | tail s act s1 _ hstep ih =>
    obtain ⟨s2, hs2, hinv2, _, _⟩ := step_sound s act ih
    rw [hstep] at hs2
    injection hs2 with h12
    rw [h12]
    exact hinv2

/-- The spec phases (spec section 3); `CaseStudyIntro` is transient inside
`start_interview` and is never the resting stage of the code. -/
inductive Phase where
  | NotStarted
  | CaseStudyIntro
  | TechnicalQuestioning
  | BehavioralQuestioning
  | ReportReady
deriving DecidableEq, Repr

/-- The spec phase denoted by each stage value of the code. -/
def phaseOf : Stage → Phase
  | .start => .NotStarted
  | .technical_interview => .TechnicalQuestioning
  | .behavioral_interview => .BehavioralQuestioning
  | .report => .ReportReady

/-- Position of a phase in the spec order
NotStarted < CaseStudyIntro < TechnicalQuestioning < BehavioralQuestioning < ReportReady. -/
def phaseRank : Phase → Nat
  | .NotStarted => 0
  | .CaseStudyIntro => 1
  | .TechnicalQuestioning => 2
  | .BehavioralQuestioning => 3
  | .ReportReady => 4

/-- A successful `ask_next_technical_question` keeps the stage or moves it
to the behavioral stage. -/
theorem ask_next_stage (s : Session) (oq : Option String) (s1 : Session)
    (h : ask_next_technical_question s oq = some s1) :
    s1.stage = s.stage ∨ s1.stage = Stage.behavioral_interview := by
  obtain ⟨st, msgs, ag, cq, csk, slog⟩ := s
  cases ag with
  | none => exact absurd h (by simp [ask_next_technical_question])
  | some a =>
    simp only [ask_next_technical_question, ask_behavioral_question] at h
    cases hnu : nextUntested a.skill_profile with
    | some sk =>
      rw [hnu] at h
      injection h with h2
      rw [← h2]
      exact Or.inl rfl
    | none =>
      rw [hnu] at h
      injection h with h2
      rw [← h2]
      exact Or.inr rfl

/-- Claim C3 engine: no UI-driven step ever decreases the phase rank, for
arbitrary (not necessarily reachable) sessions. -/
theorem step_rank (s : Session) (act : UserAction) (s1 : Session)
    (h : step s act = some s1) :
    phaseRank (phaseOf s.stage) ≤ phaseRank (phaseOf s1.stage) := by
  obtain ⟨st, msgs, ag, cq, csk, slog⟩ := s
  cases act with
  | submitStart name role oc oq =>
    cases st with
    | start => exact Nat.zero_le _
    | technical_interview => injection h with h2; rw [← h2]
    | behavioral_interview => injection h with h2; rw [← h2]
    | report => injection h with h2; rw [← h2]
  | chat p oi oe oh oq ob =>
    cases st with
    | start => injection h with h2; rw [← h2]
    | report => injection h with h2; rw [← h2]
    | technical_interview =>
      cases ag with
      | none => exact absurd h (by simp [step, handle_user_response])
      | some a =>
        simp only [step, handle_user_response, reduceIte, eq_self_iff_true,
          true_or, if_true] at h
        by_cases hA : pyStrip (call_gemini_text oi) = "ANSWERING"
        · rw [if_pos hA] at h
          cases csk with
          | none => exact absurd h (by simp)
          | some sk =>
            rcases ask_next_stage _ oq s1 h with h2 | h2 <;>
              (rw [h2]; try simp [phaseOf, phaseRank])
        · rw [if_neg hA] at h
          by_cases hH : pyStrip (call_gemini_text oi) = "HINT_REQUEST"
          · rw [if_pos hH] at h
            injection h with h2
            rw [← h2]
          · rw [if_neg hH] at h
            cases csk with
            | none => exact absurd h (by simp)
            | some sk =>
              rcases ask_next_stage _ oq s1 h with h2 | h2 <;>
                (rw [h2]; try simp [phaseOf, phaseRank])
    | behavioral_interview =>
      cases ag with
      | none => exact absurd h (by simp [step, handle_user_response])
      | some a =>
        injection h with h2
        rw [← h2]
        simp [phaseOf, phaseRank]
  | viewReport orep ts =>
    cases st with
    | start => injection h with h2; rw [← h2]
    | technical_interview => injection h with h2; rw [← h2]
    | behavioral_interview => injection h with h2; rw [← h2]
    | report =>
      cases ag with
      | none => exact absurd h (by simp [step, show_report])
      | some a =>
        injection h with h2
        rw [← h2]
/-- Elimination form of the invariant at the report stage. -/
theorem inv_report_elim (s : Session) (hInv : Inv s) (hst : s.stage = Stage.report) :
    ∃ a, s.agent = some a ∧ nextUntested a.skill_profile = none ∧
      (a.skill_profile .behavioral).status = Status.Assessed ∧
      TechOrdered a.skill_profile := by
  unfold Inv at hInv
  rw [hst] at hInv
  exact hInv

/-- Elimination form of the invariant at the technical stage. -/
theorem inv_tech_elim (s : Session) (hInv : Inv s)
    (hst : s.stage = Stage.technical_interview) :
    ∃ a sk, s.agent = some a ∧ s.current_skill = some sk ∧
      nextUntested a.skill_profile = some sk ∧
      (a.skill_profile .behavioral).status = Status.Untested ∧
      TechOrdered a.skill_profile := by
  unfold Inv at hInv
  rw [hst] at hInv
  exact hInv

/-- Any live agent of an invariant session has an ordered profile. -/
theorem inv_ordered (s : Session) (hInv : Inv s) (a : Agent)
    (ha : s.agent = some a) : TechOrdered a.skill_profile := by
  unfold Inv at hInv
  cases hst : s.stage with
  | start =>
    rw [hst] at hInv
    rw [ha] at hInv
    exact absurd hInv (by simp)
  | technical_interview =>
    rw [hst] at hInv
    obtain ⟨a2, sk2, ha2, _, _, _, hord⟩ := hInv
    have he : a = a2 := Option.some.inj (ha.symm.trans ha2)
    rw [he]
    exact hord
  | behavioral_interview =>
    rw [hst] at hInv
    obtain ⟨a2, ha2, _, _, hord⟩ := hInv
    have he : a = a2 := Option.some.inj (ha.symm.trans ha2)
    rw [he]
    exact hord
  | report =>
    rw [hst] at hInv
    obtain ⟨a2, ha2, _, _, hord⟩ := hInv
    have he : a = a2 := Option.some.inj (ha.symm.trans ha2)
    rw [he]
    exact hord

/-- When `nextUntested` finds nothing, every technical skill has been
visited. -/
theorem nu_none_elim (p : Skill → SkillRecord) (h : nextUntested p = none) :
    (p .dataCleaning).status ≠ Status.Untested ∧
    (p .dataAnalysis).status ≠ Status.Untested ∧
    (p .dataSummarization).status ≠ Status.Untested := by
  rw [nextUntested_eq] at h
  by_cases h1 : (p .dataCleaning).status = Status.Untested <;>
  by_cases h2 : (p .dataAnalysis).status = Status.Untested <;>
  by_cases h3 : (p .dataSummarization).status = Status.Untested <;>
  simp [h1, h2, h3] at h ⊢

/-- An oracle outage on every call an action may make. -/
def OracleAllFail : UserAction → Prop
  | .submitStart _ _ oc oq => oc = none ∧ oq = none
  | .chat _ oi oe oh oq ob =>
    oi = none ∧ oe = none ∧ oh = none ∧ oq = none ∧ ob = none
  | .viewReport orep _ => orep = none

/-- Property of the persisted log during a total-outage run: absent, or a
record whose report text is the apology fallback and whose profile has no
Untested entry. -/
def SavedOk (s : Session) : Prop :=
  s.savedLog = none ∨
    ∃ fb, s.savedLog = some fb ∧ fb.ai_generated_report = apologyMsg ∧
      ∀ sk, (fb.final_skill_profile sk).status ≠ Status.Untested

/-- One all-failing step preserves `SavedOk`. -/
theorem step_allfail_saved (s : Session) (act : UserAction) (s1 : Session)
    (hInv : Inv s) (hso : SavedOk s) (hf : OracleAllFail act)
    (h : step s act = some s1) : SavedOk s1 := by
  obtain ⟨s2, hs2, _, _, hsl⟩ := step_sound s act hInv
  rw [h] at hs2
  injection hs2 with h12
  subst h12
  rcases hsl with hsl | ⟨a2, orep, ts, hact, hstage, ha2, hsl⟩
  · unfold SavedOk
    rw [hsl]
    exact hso
  · subst hact
    have horep : orep = none := hf
    subst horep
    obtain ⟨a3, ha3, hnu3, hbst3, _⟩ := inv_report_elim s hInv hstage
    have he : a2 = a3 := Option.some.inj (ha2.symm.trans ha3)
    subst he
    right
    refine ⟨_, hsl, rfl, ?_⟩
    intro sk
    obtain ⟨g1, g2, g3⟩ := nu_none_elim a2.skill_profile hnu3
    cases sk with
    | dataCleaning => exact g1
    | dataAnalysis => exact g2
    | dataSummarization => exact g3
    | behavioral =>
      exact fun hcon => Status.noConfusion (hbst3.symm.trans hcon)

/-- A whole all-failing run from an invariant `SavedOk` state succeeds and
preserves both properties. -/
theorem run_sound (acts : List UserAction) (s : Session)
    (hInv : Inv s) (hso : SavedOk s)
    (hall : ∀ a ∈ acts, OracleAllFail a) :
    ∃ s1, runActions s acts = some s1 ∧ Inv s1 ∧ SavedOk s1 := by
  induction acts generalizing s with
  | nil => exact ⟨s, rfl, hInv, hso⟩
  | cons act rest ih =>
    obtain ⟨s2, hs2, hinv2, _, _⟩ := step_sound s act hInv
    have hso2 : SavedOk s2 :=
      step_allfail_saved s act s2 hInv hso (hall act (by simp)) hs2
    obtain ⟨s3, hs3, hinv3, hso3⟩ :=
      ih s2 hinv2 hso2 (fun a ha => hall a (by simp [ha]))
    refine ⟨s3, ?_, hinv3, hso3⟩
    simp only [runActions, hs2]
    exact hs3

/-- A chat action whose classified intent is a hint request. -/
def IsHintChat : UserAction → Prop
  | .chat _ oi _ _ _ _ => pyStrip (call_gemini_text oi) = "HINT_REQUEST"
  | _ => False

/-- One hint-classified chat step in the technical stage changes only the
message list. -/
theorem hint_step (s : Session) (act : UserAction) (s1 : Session)
    (hst : s.stage = Stage.technical_interview) (hh : IsHintChat act)
    (h : step s act = some s1) :
    s1.stage = Stage.technical_interview ∧ s1.agent = s.agent ∧
      s1.current_skill = s.current_skill ∧
      s1.current_question = s.current_question := by
  obtain ⟨st, msgs, ag, cq, csk, slog⟩ := s
  cases act with
  | submitStart name role oc oq => exact absurd hh (by simp [IsHintChat])
  | viewReport orep ts => exact absurd hh (by simp [IsHintChat])
  | chat p oi oe oh oq ob =>
    have hh2 : pyStrip (call_gemini_text oi) = "HINT_REQUEST" := hh
    subst hst
    cases ag with
    | none => exact absurd h (by simp [step, handle_user_response])
    | some a =>
      simp only [step, handle_user_response, reduceIte, eq_self_iff_true,
        true_or, if_true] at h
      have hna : pyStrip (call_gemini_text oi) ≠ "ANSWERING" := by
        rw [hh2]; decide
      rw [if_neg hna, if_pos hh2] at h
      injection h with h2
      rw [← h2]
      exact ⟨rfl, rfl, rfl, rfl⟩
/-- `ask_next_technical_question` always succeeds when an agent exists, and
keeps that agent. -/
theorem ask_next_total (s : Session) (a : Agent) (oq : Option String)
    (ha : s.agent = some a) :
    ∃ s1, ask_next_technical_question s oq = some s1 ∧ s1.agent = some a := by
  unfold ask_next_technical_question ask_behavioral_question
  simp only [ha]
  cases hnu : nextUntested a.skill_profile with
  | some sk => exact ⟨_, rfl, rfl⟩
  | none => exact ⟨_, rfl, rfl⟩

/-! ## Concrete scenarios used by witnesses and counterexamples -/

/-- Starting the interview as Alice for the Data Analytics role with a
failing case-study oracle. -/
def act0 : UserAction := .submitStart "Alice" "Data Analytics" none none

/-- The session right after `act0` from the initial session. -/
def sAfterStart : Session := (step initSession act0).getD initSession

/-- A hint-classified chat action. -/
def hintAct : UserAction :=
  .chat "could I get a hint?" (some "HINT_REQUEST") none none none none

/-- The session after one hint exchange. -/
def sAfterHint : Session := (runActions sAfterStart [hintAct]).getD initSession

/-- A complete candidate interaction under total oracle outage: start, four
replies, and the report view. -/
def outageActs : List UserAction :=
  [ .submitStart "Alice" "Data Analytics" none none,
    .chat "p1" none none none none none,
    .chat "p2" none none none none none,
    .chat "p3" none none none none none,
    .chat "p4" none none none none none,
    .viewReport none 123 ]

/-- Placeholder feedback record for `Option.getD`. -/
def dummyFeedback : Feedback :=
  { candidate_name := ""
    interview_role := ""
    final_skill_profile := initProfile
    ai_generated_report := ""
    full_transcript := []
    timestamp := 0 }

/-- Placeholder skill record for `Option.getD`. -/
def dummyRec : SkillRecord :=
  { status := .Untested, score := .jint 0, efficiency := .jint 0, evidence := "" }

/-- Final session of the outage run. -/
def outageFinal : Session := (runActions initSession outageActs).getD initSession

/-- Log record persisted by the outage run. -/
def outageLog : Feedback := outageFinal.savedLog.getD dummyFeedback

/-! ## Claim theorems -/

/-- C1: under a total Oracle outage every run from the initial session
still succeeds (no exception escapes a handler), any log it persists
carries a non-empty report string and a skill profile with no Untested
entry, and the canonical outage interaction does reach the report stage
with exactly those properties. -/
theorem C1_total_outage (acts : List UserAction)
    (hall : ∀ a ∈ acts, OracleAllFail a) :
    (∃ s1, runActions initSession acts = some s1 ∧
      ∀ fb, s1.savedLog = some fb →
        fb.ai_generated_report ≠ "" ∧
        ∀ sk, (fb.final_skill_profile sk).status ≠ Status.Untested) ∧
    (runActions initSession outageActs = some outageFinal ∧
      outageFinal.stage = Stage.report ∧
      outageFinal.savedLog = some outageLog ∧
      outageLog.ai_generated_report ≠ "" ∧
      ∀ sk, (outageLog.final_skill_profile sk).status ≠ Status.Untested) := by
  constructor
  · obtain ⟨s1, hs1, _, hso⟩ :=
      run_sound acts initSession inv_initSession (Or.inl rfl) hall
    refine ⟨s1, hs1, ?_⟩
    intro fb hfb
    rcases hso with hnone | ⟨fb2, hfb2, hrep, hall2⟩
    · rw [hfb] at hnone
      exact absurd hnone (by simp)
    · have he : fb = fb2 := Option.some.inj (hfb.symm.trans hfb2)
      subst he
      refine ⟨?_, hall2⟩
      rw [hrep]
      decide
  · refine ⟨rfl, rfl, rfl, by decide, ?_⟩
    intro sk
    cases sk <;> decide

/-- C1 witness: the canonical outage interaction, with every hypothesis
discharged. -/
theorem C1_total_outage_witness :
    ∃ s1, runActions initSession outageActs = some s1 ∧
      ∀ fb, s1.savedLog = some fb →
        fb.ai_generated_report ≠ "" ∧
        ∀ sk, (fb.final_skill_profile sk).status ≠ Status.Untested :=
  (C1_total_outage outageActs (by
    intro a ha
    simp only [outageActs, List.mem_cons, List.not_mem_nil, or_false] at ha
    rcases ha with rfl | rfl | rfl | rfl | rfl | rfl
    · exact ⟨rfl, rfl⟩
    · exact ⟨rfl, rfl, rfl, rfl, rfl⟩
    · exact ⟨rfl, rfl, rfl, rfl, rfl⟩
    · exact ⟨rfl, rfl, rfl, rfl, rfl⟩
    · exact ⟨rfl, rfl, rfl, rfl, rfl⟩
    · exact rfl)).1

/-- C2: in every reachable session, a step never modifies a skill record
that has already left Untested (each skill transitions away from Untested
at most once and never reverts), and in the successor every agent profile
still respects the fixed technical order: a later technical skill is never
tested before an earlier one. -/
theorem C2_fixed_order (s : Session) (act : UserAction) (s1 : Session)
    (hr : Reachable s) (hstep : step s act = some s1) :
    (∀ sk r, recOf s sk = some r → r.status ≠ Status.Untested →
      recOf s1 sk = some r) ∧
    (∀ a, s1.agent = some a →
      ((a.skill_profile .dataAnalysis).status ≠ Status.Untested →
        (a.skill_profile .dataCleaning).status ≠ Status.Untested) ∧
      ((a.skill_profile .dataSummarization).status ≠ Status.Untested →
        (a.skill_profile .dataAnalysis).status ≠ Status.Untested)) := by
  have hInv := reachable_inv s hr
  obtain ⟨s2, hs2, hinv2, hstab, _⟩ := step_sound s act hInv
  rw [hstep] at hs2
  injection hs2 with h12
  subst h12
  exact ⟨hstab, fun a ha => inv_ordered _ hinv2 a ha⟩

/-- C2 witness: the first step from the initial session. -/
theorem C2_fixed_order_witness :
    (∀ sk r, recOf initSession sk = some r → r.status ≠ Status.Untested →
      recOf sAfterStart sk = some r) ∧
    (∀ a, sAfterStart.agent = some a →
      ((a.skill_profile .dataAnalysis).status ≠ Status.Untested →
        (a.skill_profile .dataCleaning).status ≠ Status.Untested) ∧
      ((a.skill_profile .dataSummarization).status ≠ Status.Untested →
        (a.skill_profile .dataAnalysis).status ≠ Status.Untested)) :=
  C2_fixed_order initSession act0 sAfterStart Reachable.base rfl

/-- C3: no UI-driven step, for any session whatsoever, ever decreases the
spec phase order NotStarted < CaseStudyIntro < TechnicalQuestioning <
BehavioralQuestioning < ReportReady (the abandon/reset action is outside
the step relation). -/
theorem C3_phase_monotone (s : Session) (act : UserAction) (s1 : Session)
    (h : step s act = some s1) :
    phaseRank (phaseOf s.stage) ≤ phaseRank (phaseOf s1.stage) :=
  step_rank s act s1 h

/-- C3 witness: the first step from the initial session. -/
theorem C3_phase_monotone_witness :
    phaseRank (phaseOf initSession.stage) ≤ phaseRank (phaseOf sAfterStart.stage) :=
  C3_phase_monotone initSession act0 sAfterStart rfl

/-- C4: any number of hint-classified responses during technical
questioning leaves the stage, the agent (hence every skill record), the
current skill and the current question unchanged. -/
theorem C4_hint_frame (acts : List UserAction) (s s1 : Session)
    (hst : s.stage = Stage.technical_interview)
    (hall : ∀ a ∈ acts, IsHintChat a)
    (h : runActions s acts = some s1) :
    s1.stage = Stage.technical_interview ∧ s1.agent = s.agent ∧
      s1.current_skill = s.current_skill ∧
      s1.current_question = s.current_question ∧
      (∀ sk, recOf s1 sk = recOf s sk) := by
  induction acts generalizing s with
  | nil =>
    injection h with h1
    subst h1
    exact ⟨hst, rfl, rfl, rfl, fun _ => rfl⟩
  | cons act rest ih =>
    cases hstep : step s act with
    | none =>
      simp only [runActions, hstep] at h
      exact Option.noConfusion h
    | some s2 =>
      simp only [runActions, hstep] at h
      obtain ⟨h1, h2, h3, h4⟩ := hint_step s act s2 hst (hall act (by simp)) hstep
      obtain ⟨g1, g2, g3, g4, g5⟩ :=
        ih s2 h1 (fun a ha => hall a (by simp [ha])) h
      refine ⟨g1, g2.trans h2, g3.trans h3, g4.trans h4, ?_⟩
      intro sk
      rw [g5 sk]
      simp only [recOf, h2]

/-- C4 witness: one hint exchange right after the start of the interview. -/
theorem C4_hint_frame_witness :
    sAfterHint.stage = Stage.technical_interview ∧
    sAfterHint.agent = sAfterStart.agent ∧
    sAfterHint.current_skill = sAfterStart.current_skill ∧
    sAfterHint.current_question = sAfterStart.current_question ∧
    (∀ sk, recOf sAfterHint sk = recOf sAfterStart sk) :=
  C4_hint_frame [hintAct] sAfterStart sAfterHint rfl
    (by
      intro a ha
      simp only [List.mem_singleton] at ha
      subst ha
      exact rfl)
    rfl
/-- C5 counterexample: on a structured-call failure the substituted record
is the error-marker object, which carries no score and no justification
entry at all — not the record with score 0 and justification "error" that
the claim states. -/
theorem C5_fallback_counterexample :
    call_gemini_json none = errorObj ∧
    pyGet (call_gemini_json none) "score" = none ∧
    pyGet (call_gemini_json none) "justification" = none ∧
    pyGet (call_gemini_json none) "justification" ≠ some (JVal.jstr "error") := by
  refine ⟨rfl, rfl, rfl, ?_⟩
  decide

/-- C5 (amended): when an Oracle call fails, the free-text helper returns
the apology fallback and the structured helper substitutes the error-marker
object; neither raises.  The substituted object has no score keys, so the
downstream lookups default and the evaluation proceeds, recording status
Assessed with score 0 and efficiency 0 and returning the default reply. -/
theorem C5_fallback_semantics :
    call_gemini_text none = apologyMsg ∧
    apologyMsg ≠ "" ∧
    call_gemini_json none = errorObj ∧
    (∀ a q ans sk,
      ((evaluate_technical_answer a q ans sk none).1.skill_profile sk).status =
        Status.Assessed ∧
      ((evaluate_technical_answer a q ans sk none).1.skill_profile sk).score =
        JVal.jint 0 ∧
      ((evaluate_technical_answer a q ans sk none).1.skill_profile sk).efficiency =
        JVal.jint 0 ∧
      (evaluate_technical_answer a q ans sk none).2 = "Okay, thank you for that.") := by
  refine ⟨rfl, by decide, rfl, ?_⟩
  intro a q ans sk
  refine ⟨?_, ?_, ?_, rfl⟩ <;>
    (simp [evaluate_technical_answer, updateProfile]; try rfl)

/-- C6: during technical questioning, any intent classification other than
ANSWERING and HINT_REQUEST — including the apology fallback produced when
the classification call fails — takes exactly the UNCERTAIN path: the step
result coincides with the result for a literal UNCERTAIN classification,
the current skill is marked Skipped in place, and the controller advances
(next technical question or fall-through to the behavioral stage). -/
theorem C6_unrecognized_intent (s : Session) (p : String)
    (oi : Option String) (oe : Option JObj) (oh oq : Option String)
    (ob : Option JObj)
    (hst : s.stage = Stage.technical_interview)
    (h1 : pyStrip (call_gemini_text oi) ≠ "ANSWERING")
    (h2 : pyStrip (call_gemini_text oi) ≠ "HINT_REQUEST") :
    step s (.chat p oi oe oh oq ob) = step s (.chat p (some "UNCERTAIN") oe oh oq ob) ∧
    (∀ a sk, s.agent = some a → s.current_skill = some sk →
      ∃ s1, step s (.chat p oi oe oh oq ob) = some s1 ∧
        s1.agent = some (skipAgent a sk) ∧
        (s1.stage = Stage.technical_interview ∨
          s1.stage = Stage.behavioral_interview)) := by
  obtain ⟨st, msgs, ag, cq, csk, slog⟩ := s
  subst hst
  constructor
  · cases ag with
    | none => rfl
    | some a =>
      simp only [step, handle_user_response, reduceIte, eq_self_iff_true,
        true_or, if_true]
      rw [if_neg h1, if_neg h2]
      rfl
  · intro a sk ha hsk
    have ha2 : ag = some a := ha
    have hsk2 : csk = some sk := hsk
    subst ha2
    subst hsk2
    obtain ⟨s1, hs1, hag⟩ := ask_next_total
      ⟨Stage.technical_interview,
        (msgs ++ [Message.mk "user" p]) ++
          [Message.mk "assistant" "No problem, let\x27s move on."],
        some (skipAgent a sk), cq, some sk, slog⟩ (skipAgent a sk) oq rfl
    refine ⟨s1, ?_, hag, ?_⟩
    · simp only [step, handle_user_response, reduceIte, eq_self_iff_true,
        true_or, if_true]
      rw [if_neg h1, if_neg h2]
      exact hs1
    · exact ask_next_stage _ oq s1 hs1

/-- C6 witness: a gibberish classification right after the interview
starts. -/
theorem C6_unrecognized_intent_witness :
    step sAfterStart (.chat "hmm" (some "GIBBERISH") none none none none) =
      step sAfterStart (.chat "hmm" (some "UNCERTAIN") none none none none) :=
  (C6_unrecognized_intent sAfterStart "hmm" (some "GIBBERISH") none none none none
    rfl (by decide) (by decide)).1

/-- An agent whose Data Cleaning skill has already been assessed, used to
exhibit the silent-overwrite behavior. -/
def c7agent : Agent :=
  { candidate_name := "X"
    interview_role := "R"
    skill_profile :=
      updateProfile initProfile .dataCleaning
        { status := Status.Assessed, score := .jint 5, efficiency := .jint 4,
          evidence := "old evidence" }
    case_study := none
    conversation_history := [] }

/-- C7 counterexample: recording a result (or marking skipped) on an
already-Assessed skill does not fail — there is no precondition check in
the code — it silently overwrites the stored record. -/
theorem C7_overwrite_counterexample :
    (c7agent.skill_profile Skill.dataCleaning).status = Status.Assessed ∧
    ((evaluate_technical_answer c7agent (some "q") "ans" Skill.dataCleaning
        (some [("score", JVal.jint 2)])).1.skill_profile Skill.dataCleaning).score =
      JVal.jint 2 ∧
    (evaluate_technical_answer c7agent (some "q") "ans" Skill.dataCleaning
        (some [("score", JVal.jint 2)])).1.skill_profile Skill.dataCleaning ≠
      c7agent.skill_profile Skill.dataCleaning ∧
    ((skipAgent c7agent Skill.dataCleaning).skill_profile Skill.dataCleaning).status =
      Status.Skipped := by
  refine ⟨rfl, rfl, ?_, rfl⟩
  decide

/-- C7 (amended): the update operations silently overwrite when applied to
a non-Untested skill, but the Controller never does so — in every reachable
technical-questioning session the current skill (the only one either
operation is applied to) is still Untested. -/
theorem C7_precondition_reachable (s : Session) (a : Agent) (sk : Skill)
    (hr : Reachable s) (hst : s.stage = Stage.technical_interview)
    (ha : s.agent = some a) (hsk : s.current_skill = some sk) :
    (a.skill_profile sk).status = Status.Untested := by
  obtain ⟨a2, sk2, ha2, hsk2, hnu2, _, _⟩ :=
    inv_tech_elim s (reachable_inv s hr) hst
  have he1 : a = a2 := Option.some.inj (ha.symm.trans ha2)
  have he2 : sk = sk2 := Option.some.inj (hsk.symm.trans hsk2)
  subst he1
  subst he2
  exact nu_some_untested a.skill_profile sk hnu2

/-- C7 witness: the session right after the interview starts. -/
theorem C7_precondition_witness :
    ((introduce_case_study (mkAgent "Alice" "Data Analytics") none).1.skill_profile
      Skill.dataCleaning).status = Status.Untested :=
  C7_precondition_reachable sAfterStart
    (introduce_case_study (mkAgent "Alice" "Data Analytics") none).1
    Skill.dataCleaning
    (Reachable.tail initSession act0 sAfterStart Reachable.base rfl)
    rfl rfl rfl
/-- The spec section 8 property 6 interaction: all three technical
questions answered with oracle scores 5, 3, 2 and efficiencies 4, 5, 1,
then a behavioral answer scored 4, then the report view. -/
def c8acts : List UserAction :=
  [ .submitStart "Alice Smith" "Data Analytics" none (some "Q1"),
    .chat "a1" (some "ANSWERING")
      (some [("score", .jint 5), ("efficiency_score", .jint 4)]) none (some "Q2") none,
    .chat "a2" (some "ANSWERING")
      (some [("score", .jint 3), ("efficiency_score", .jint 5)]) none (some "Q3") none,
    .chat "a3" (some "ANSWERING")
      (some [("score", .jint 2), ("efficiency_score", .jint 1)]) none (some "BQ") none,
    .chat "b1" none none none none (some [("score", .jint 4)]),
    .viewReport (some "The final report.") 777 ]

/-- Final session of the scored run. -/
def c8final : Session := (runActions initSession c8acts).getD initSession

/-- Log record persisted by the scored run. -/
def c8log : Feedback := c8final.savedLog.getD dummyFeedback

/-- C8: the persisted log record is a value snapshot — mutating the live
skill profile of any session never alters an already-persisted record (in
particular its report string) — and, on the concrete scored run, the
snapshot holds exactly the six oracle numbers against the right skills. -/
theorem C8_snapshot :
    (∀ s sk r, (mutateProfile s sk r).savedLog = s.savedLog) ∧
    (runActions initSession c8acts = some c8final ∧
      c8final.savedLog = some c8log ∧
      (c8log.final_skill_profile .dataCleaning).status = Status.Assessed ∧
      (c8log.final_skill_profile .dataCleaning).score = JVal.jint 5 ∧
      (c8log.final_skill_profile .dataCleaning).efficiency = JVal.jint 4 ∧
      (c8log.final_skill_profile .dataAnalysis).status = Status.Assessed ∧
      (c8log.final_skill_profile .dataAnalysis).score = JVal.jint 3 ∧
      (c8log.final_skill_profile .dataAnalysis).efficiency = JVal.jint 5 ∧
      (c8log.final_skill_profile .dataSummarization).status = Status.Assessed ∧
      (c8log.final_skill_profile .dataSummarization).score = JVal.jint 2 ∧
      (c8log.final_skill_profile .dataSummarization).efficiency = JVal.jint 1 ∧
      (c8log.final_skill_profile .behavioral).score = JVal.jint 4 ∧
      c8log.ai_generated_report = "The final report." ∧
      ∀ sk r, (mutateProfile c8final sk r).savedLog = some c8log) := by
  constructor
  · intro s sk r
    obtain ⟨st, msgs, ag, cq, csk, slog⟩ := s
    cases ag <;> rfl
  · exact ⟨rfl, rfl, rfl, rfl, rfl, rfl, rfl, rfl, rfl, rfl, rfl, rfl, rfl,
      fun sk r => rfl⟩

/-- A run in which the first technical answer is classified ANSWERING but
the evaluation oracle call fails. -/
def c9acts : List UserAction :=
  [ .submitStart "Alice" "Data Analytics" none none,
    .chat "my answer" (some "ANSWERING") none none none none ]

/-- Final session of the failing-evaluation run. -/
def c9final : Session := (runActions initSession c9acts).getD initSession

/-- The Data Cleaning record after the failing evaluation. -/
def c9rec : SkillRecord := (recOf c9final Skill.dataCleaning).getD dummyRec

/-- C9: when the evaluation oracle fails (or its response misses the score
keys), the tested skill is recorded as Assessed with score 0 and
efficiency 0 — the value the spec reserves as the "not yet set" sentinel —
and such an entry is reachable through the public step interface. -/
theorem C9_assessed_zero (a : Agent) (q : Option String) (ans : String)
    (sk : Skill) (oe : Option JObj)
    (hs : pyGet (call_gemini_json oe) "score" = none)
    (he : pyGet (call_gemini_json oe) "efficiency_score" = none) :
    (((evaluate_technical_answer a q ans sk oe).1.skill_profile sk).status =
        Status.Assessed ∧
      ((evaluate_technical_answer a q ans sk oe).1.skill_profile sk).score =
        JVal.jint 0 ∧
      ((evaluate_technical_answer a q ans sk oe).1.skill_profile sk).efficiency =
        JVal.jint 0) ∧
    (runActions initSession c9acts = some c9final ∧
      recOf c9final Skill.dataCleaning = some c9rec ∧
      c9rec.status = Status.Assessed ∧
      c9rec.score = JVal.jint 0 ∧
      c9rec.efficiency = JVal.jint 0) := by
  constructor
  · refine ⟨?_, ?_, ?_⟩ <;>
      (simp [evaluate_technical_answer, updateProfile, pyGetVD, hs, he]; try rfl)
  · exact ⟨rfl, rfl, rfl, rfl, rfl⟩

/-- C9 witness: a concrete failing evaluation discharges both hypotheses. -/
theorem C9_assessed_zero_witness :
    (((evaluate_technical_answer (mkAgent "A" "R") none "ans" Skill.dataCleaning
        none).1.skill_profile Skill.dataCleaning).status = Status.Assessed ∧
      ((evaluate_technical_answer (mkAgent "A" "R") none "ans" Skill.dataCleaning
        none).1.skill_profile Skill.dataCleaning).score = JVal.jint 0 ∧
      ((evaluate_technical_answer (mkAgent "A" "R") none "ans" Skill.dataCleaning
        none).1.skill_profile Skill.dataCleaning).efficiency = JVal.jint 0) ∧
    (runActions initSession c9acts = some c9final ∧
      recOf c9final Skill.dataCleaning = some c9rec ∧
      c9rec.status = Status.Assessed ∧
      c9rec.score = JVal.jint 0 ∧
      c9rec.efficiency = JVal.jint 0) :=
  C9_assessed_zero (mkAgent "A" "R") none "ans" Skill.dataCleaning none rfl rfl

/-- A list of characters none of which is a space, by boolean evaluation. -/
theorem no_space_of_all (l : List Char)
    (h : l.all (fun c => !(c == ' ')) = true) : ∀ c ∈ l, c ≠ ' ' := by
  intro c hc
  have h2 := List.all_eq_true.mp h c hc
  simpa using h2

/-- `Nat.digitChar` never returns a space. -/
theorem digitChar_ne_space (m : Nat) : Nat.digitChar m ≠ ' ' := by
  by_cases h : m < 16
  · interval_cases m <;> decide
  · unfold Nat.digitChar
    iterate 16 rw [if_neg (by omega)]
    decide

/-- `Nat.toDigitsCore` never puts a space among the digits. -/
theorem toDigitsCore_ne_space (b : Nat) (fuel : Nat) (n : Nat) (ds : List Char)
    (hds : ∀ c ∈ ds, c ≠ ' ') :
    ∀ c ∈ Nat.toDigitsCore b fuel n ds, c ≠ ' ' := by
  induction fuel generalizing n ds with
  | zero =>
    intro c hc
    exact hds c hc
  | succ fuel ih =>
    intro c hc
    rw [Nat.toDigitsCore] at hc
    have hcons : ∀ c2 ∈ Nat.digitChar (n % b) :: ds, c2 ≠ ' ' := by
      intro c2 hc2
      rcases List.mem_cons.mp hc2 with h2 | h2
      · rw [h2]
        exact digitChar_ne_space _
      · exact hds c2 h2
    by_cases hz : n / b = 0
    · rw [if_pos hz] at hc
      exact hcons c hc
    · rw [if_neg hz] at hc
      exact ih (n / b) (Nat.digitChar (n % b) :: ds) hcons c hc

/-- The decimal rendering of a natural number contains no space. -/
theorem repr_ne_space (t : Nat) : ∀ c ∈ (Nat.repr t).data, c ≠ ' ' := by
  show ∀ c ∈ Nat.toDigits 10 t, c ≠ ' '
  unfold Nat.toDigits
  exact toDigitsCore_ne_space 10 (t + 1) t [] (by intro c hc; cases hc)

/-- `replaceSpace` output contains no space. -/
theorem replaceSpace_ne_space (name : String) :
    ∀ c ∈ (replaceSpace name).data, c ≠ ' ' := by
  intro c hc
  simp only [replaceSpace, List.mem_map] at hc
  obtain ⟨b, _, hb⟩ := hc
  by_cases hbs : b = ' '
  · rw [if_pos hbs] at hb
    rw [← hb]
    decide
  · rw [if_neg hbs] at hb
    rw [← hb]
    exact hbs

/-- C10 counterexample: the candidate name only has its space characters
replaced; a tab — a whitespace character — passes through into the log
filename, so the filename is not whitespace-free as the claim states. -/
theorem C10_whitespace_counterexample :
    ('\t' ∈ (logFilename "a\tb" 0).data) ∧ '\t'.isWhitespace = true := by
  constructor
  · decide
  · decide

/-- C10 (amended): the log filename is a pure (hence deterministic)
function of the candidate name and the timestamp, built by replacing every
space character of the name with an underscore, so it contains no space
character — but whitespace other than spaces is not replaced. -/
theorem C10_filename_no_space (name : String) (ts : Nat) :
    (∀ c ∈ (logFilename name ts).data, c ≠ ' ') ∧
    logFilename name ts =
      "interview_log_" ++ replaceSpace name ++ "_" ++ Nat.repr ts ++ ".json" := by
  refine ⟨?_, rfl⟩
  intro c hc
  have hdata : ∀ s t : String, (s ++ t).data = s.data ++ t.data := fun _ _ => rfl
  simp only [logFilename, hdata, List.mem_append] at hc
  rcases hc with ((((hc | hc) | hc) | hc) | hc)
  · exact no_space_of_all _ (by decide) c hc
  · exact replaceSpace_ne_space name c hc
  · exact no_space_of_all _ (by decide) c hc
  · exact repr_ne_space ts c hc
  · exact no_space_of_all _ (by decide) c hc
end ExcelBot
